import Mathlib

/-!
Verification of the vpptop statistics client: a shallow embedding of the
stats-aggregation package (`stats`) and the polling/render client package
(`client`), with theorems settling the behavioural claims about error-counter
deltas, interface rate computation, the concurrent interface fetch join,
protocol-version selection, cache replacement, failed-poll display behaviour,
sort toggling, and interface-counter clearing.

Machine integers (`uint64`) are modelled as `Nat` with wraparound made
explicit at each subtraction site (`wsub`), matching Go's unsigned
subtraction modulo 2^64.
-/

namespace Vpptop

/-- Go `uint64` subtraction `a - b`, i.e. `(a - b) mod 2^64`.  For operand
values below `2^64` this is exactly Go's unsigned wraparound subtraction. -/
def wsub (a b : Nat) : Nat := (a + (2 ^ 64 - b % 2 ^ 64)) % 2 ^ 64

/-- One entry of the node-counter dump (`telemetry.NodeCounter`, the payload
of the repository's `Error` type): a cumulative counter `value` for the pair
(`node`, `name`).  Only these three fields are read by the sources. -/
structure NodeCounter where
  value : Nat
  node : String
  name : String
deriving DecidableEq, Repr

/-- The error-counter baseline `VPP.lastErrorCounters : map[string]uint64`.
A Go map lookup of an absent key yields the zero value, so the map is
modelled as a total function defaulting to `0`. -/
def Baseline : Type := String → Nat

/-- Embeds `VPP.GetErrors` (stats package): for each raw counter the recorded
baseline under the concatenated key `Node+Name` is subtracted (Go `uint64`
arithmetic, hence `wsub`) and entries whose resulting value is zero are
skipped.  The baseline is read, never written. -/
def getErrors (lastErrorCounters : Baseline) : List NodeCounter → List NodeCounter
  | [] => []
  | c :: rest =>
    if wsub c.value (lastErrorCounters (c.node ++ c.name)) = 0 then
      getErrors lastErrorCounters rest
    else
      { c with value := wsub c.value (lastErrorCounters (c.node ++ c.name)) } ::
        getErrors lastErrorCounters rest

/-- Embeds `VPP.updateLastErrors` (stats package): walk the freshly fetched
counters and, for each counter with a non-zero value, store that value in the
baseline under the concatenated key; zero-valued counters are skipped and any
existing baseline entry for them is left in place.  The old map is mutated in
place, i.e. entries not overwritten survive. -/
def updateLastErrors (m : Baseline) : List NodeCounter → Baseline
  | [] => m
  | c :: rest =>
    if c.value = 0 then updateLastErrors m rest
    else updateLastErrors (fun k => if k = c.node ++ c.name then c.value else m k) rest

/-- Embeds the state change of `VPP.ClearErrorCounters`: the fresh baseline
snapshot (`updateLastErrors`) is taken from the raw counters before the
`clear errors` CLI command is issued to the engine; the CLI round-trip itself
is external and does not touch the baseline. -/
def clearErrorCounters (m : Baseline) (raw : List NodeCounter) : Baseline :=
  updateLastErrors m raw

/-- Concrete baseline for the counterexample scenarios: the single recorded
entry (`node1`,`err-a`) ↦ 5 under its concatenated key. -/
def exBaseline : Baseline := fun k => if k = "node1err-a" then 5 else 0

/-- Concrete raw counter dump for the C1 scenario. -/
def exRaw : List NodeCounter :=
  [{ value := 5, node := "node1", name := "err-a" },
   { value := 2, node := "node1", name := "err-b" }]

/-- Concrete raw counter dump in which the engine reports zero for a counter
that still has a stale non-zero baseline entry. -/
def exRawZero : List NodeCounter :=
  [{ value := 0, node := "node1", name := "err-a" }]

/-! ## Interface statistics (stats package) -/

/-- A packets/bytes pair (`api.InterfaceCounters`' combined counters). -/
structure CombinedCounter where
  packets : Nat
  bytes : Nat
deriving DecidableEq, Repr

/-- The counter-side view of one interface (`api.InterfaceCounters`), with
the fields the sources read. -/
structure InterfaceCounters where
  interfaceIndex : Nat
  interfaceName : String
  rx : CombinedCounter
  tx : CombinedCounter
  rxErrors : Nat
  txErrors : Nat
  rxUnicast : CombinedCounter
  rxMulticast : CombinedCounter
  rxBroadcast : CombinedCounter
  txUnicast : CombinedCounter
  txMulticast : CombinedCounter
  txBroadcast : CombinedCounter
  drops : Nat
  punts : Nat
  ip4 : Nat
  ip6 : Nat
  rxNoBuf : Nat
  rxMiss : Nat
deriving DecidableEq, Repr

/-- The detail-side view of one interface (`ifplugin.InterfaceDetails`): the
sources read the enabled flag, the assigned IP addresses and the MTU set. -/
structure IfaceDetails where
  enabled : Bool
  ipAddresses : List String
  mtu : List Nat
deriving DecidableEq, Repr

/-- The repository's `stats.Interface`: the embedded counters plus the
fields filled in from the detail view. -/
structure Interface where
  counters : InterfaceCounters
  ipAddrs : List String
  state : String
  mtu : List Nat
deriving DecidableEq, Repr

/-- Builds one `stats.Interface` from a matched counter/detail pair, exactly
as the join loop of `VPP.GetInterfaces` does: `state` is `"up"` when the
detail view's enabled flag is set and `"down"` otherwise. -/
def mkInterface (c : InterfaceCounters) (d : IfaceDetails) : Interface :=
  { counters := c
    ipAddrs := d.ipAddresses
    state := if d.enabled then "up" else "down"
    mtu := d.mtu }

/-- Embeds the join loop of `VPP.GetInterfaces` (stats package): walk the
counter-side entries in order, drop every entry whose interface index has no
matching detail-side entry, and build a `stats.Interface` for the rest.  The
detail map `map[uint32]*InterfaceDetails` is modelled as a partial
function from the index. -/
def joinInterfaces (details : Nat → Option IfaceDetails) :
    List InterfaceCounters → List Interface
  | [] => []
  | c :: rest =>
    match details c.interfaceIndex with
    | none => joinInterfaces details rest
    | some d => mkInterface c d :: joinInterfaces details rest

/-- The error value a fetch goroutine sends on the buffered error channel:
`none` for a nil error (success), `some e` for a failure. -/
def errOf {α : Type} : Except String α → Option String
  | .ok _ => none
  | .error e => some e

/-- Embeds the receive loop `for err := range errChan` of `GetInterfaces`:
values are taken in channel (completion) order; the loop stops and yields the
first non-nil error as soon as it receives one, otherwise it drains the
channel.  The second component counts how many channel values were received
before the loop finished. -/
def recvErrors : List (Option String) → Option String × Nat
  | [] => (none, 0)
  | some e :: _ => (some e, 1)
  | none :: rest =>
    let p := recvErrors rest
    (p.1, p.2 + 1)

/-- The value a fetch goroutine stored into its result variable: the fetched
value on success, the Go zero value (`dflt`) when the fetch failed. -/
def valueOr {α : Type} (r : Except String α) (dflt : α) : α :=
  match r with
  | .ok v => v
  | .error _ => dflt

/-- Embeds one execution of `VPP.GetInterfaces` (stats package): the detail
dump and the counter fetch run concurrently and each sends its error value on
a buffered channel; `detailsFirst` fixes which of the two completion messages
arrives first.  The receive loop returns `nil, err` at the first non-nil
error, otherwise the join of the two fetched values.  The `Nat` component is
the number of channel receives the loop performed before returning. -/
def getInterfacesRun (detailsFirst : Bool)
    (dRes : Except String (Nat → Option IfaceDetails))
    (sRes : Except String (List InterfaceCounters)) :
    Except String (List Interface) × Nat :=
  let arrival := if detailsFirst then [errOf dRes, errOf sRes] else [errOf sRes, errOf dRes]
  match recvErrors arrival with
  | (some e, n) => (.error ("request failed: " ++ e), n)
  | (none, n) => (.ok (joinInterfaces (valueOr dRes fun _ => none) (valueOr sRes [])), n)

/-! ## Version selection (stats package, `ConnectRemote`) -/

/-- One entry of the `govppmux.Versions` registry: a release tag and that
release's expected message set (message identities modelled as strings). -/
structure VersionHandler where
  version : String
  msgs : List String
deriving DecidableEq, Repr

/-- Embeds the version-selection loop of `VPP.ConnectRemote`: walk the
version handlers in the order the Go map range yields them, run the
compatibility check (`apiChan.CheckCompatiblity h.Msgs...`) on each, and
stop at the first handler whose check succeeds (the loop body registers that
version's messages and breaks).  `none` when no handler passes.  The list
argument is the iteration order, which Go does not fix for a map. -/
def selectVersion (check : List String → Bool) : List VersionHandler → Option VersionHandler
  | [] => none
  | h :: rest => if check h.msgs then some h else selectVersion check rest

/-! ## Client: formatting, cache, polling tick (client package) -/

/-- Stands for `xtui.EmptyCell` (gui package, outside the given sources);
its exact contents are immaterial to the verified properties. -/
def emptyCell : String := ""

/-- Embeds the `nameToIdx` map built at the top of `App.formatInterfaces`:
for each cached interface its position is stored under its name, so a name
occurring more than once resolves to its last position. -/
def nameToIdx (cache : List Interface) : String → Option Nat :=
  cache.enum.foldl
    (fun m p => fun name => if name = p.2.counters.interfaceName then some p.1 else m name)
    (fun _ => none)

/-- Embeds the bytes/s and packets/s computation of `App.formatInterfaces`
(the block guarded by `if idx, ok := nameToIdx[iface.InterfaceName]; ok`):
all four rates are zero unless the previous sample cache holds an interface
of the same name, in which case each rate is the Go `uint64` difference
between the current and the cached counter.  Returned as
(rx bytes/s, tx bytes/s, rx packets/s, tx packets/s). -/
def ifaceRates (cache : List Interface) (iface : Interface) : Nat × Nat × Nat × Nat :=
  match nameToIdx cache iface.counters.interfaceName with
  | some idx =>
    match cache.get? idx with
    | some prev =>
      (wsub iface.counters.rx.bytes prev.counters.rx.bytes,
       wsub iface.counters.tx.bytes prev.counters.tx.bytes,
       wsub iface.counters.rx.packets prev.counters.rx.packets,
       wsub iface.counters.tx.packets prev.counters.tx.packets)
    | none => (0, 0, 0, 0)
  | none => (0, 0, 0, 0)

/-- Writes `v` into column 0 of row `i`, i.e. `rows[i][0] = v` of the IP
address loop at the end of `App.formatInterfaces`. -/
def setCell0 (rows : List (List String)) (i : Nat) (v : String) : List (List String) :=
  match rows.get? i with
  | some r => rows.set i (r.set 0 v)
  | none => rows

/-- Embeds the IP-address loop of `App.formatInterfaces`: starting from the
second row of the block, column 0 is overwritten with the host part of each
assigned address, walking the address list from its end, for at most the ten
remaining rows of the block. -/
def applyIPs (ips : List String) (block : List (List String)) : List (List String) :=
  (List.range (min ips.length 10)).foldl
    (fun rs j =>
      setCell0 rs (1 + j) ((((ips.get? (ips.length - 1 - j)).getD emptyCell).splitOn ("/")).headD emptyCell))
    block

/-- Embeds the 11-row block `App.formatInterfaces` emits for one interface:
row 0 carries name, index, state, the MTU quadruple and the cumulative
counters; rows 1 and 3 carry the per-second packet and byte rates computed
against the previous sample cache; rows 2 and 4-9 carry the remaining
cumulative counters; row 10 is blank; finally the IP-address loop fills
column 0 of the trailing rows.  (The source indexes `iface.MTU[0..3]`
directly; the embedding totalises that access with default 0, which agrees
whenever the detail dump supplied all four MTU entries.) -/
def ifaceBlock (cache : List Interface) (iface : Interface) : List (List String) :=
  let r := ifaceRates cache iface
  let rxbbs := r.1
  let txbbs := r.2.1
  let rxpps := r.2.2.1
  let txpps := r.2.2.2
  let e := emptyCell
  let c := iface.counters
  let row0 := [c.interfaceName, toString c.interfaceIndex, iface.state,
    toString (iface.mtu.getD 0 0) ++ "/" ++ toString (iface.mtu.getD 1 0) ++ "/" ++
      toString (iface.mtu.getD 2 0) ++ "/" ++ toString (iface.mtu.getD 3 0),
    "Packets", toString c.rx.packets, "Packets", toString c.tx.packets,
    toString c.drops, toString c.punts, toString c.ip4, toString c.ip6]
  let row1 := [e, e, e, e, "Packets/s", toString rxpps, "Packets/s", toString txpps, e, e, e, e]
  let row2 := [e, e, e, e, "Bytes", toString c.rx.bytes, "Bytes", toString c.tx.bytes, e, e, e, e]
  let row3 := [e, e, e, e, "Bytes/s", toString rxbbs, "Bytes/s", toString txbbs, e, e, e, e]
  let row4 := [e, e, e, e, "Errors", toString c.rxErrors, "Errors", toString c.txErrors, e, e, e, e]
  let row5 := [e, e, e, e, "Unicast", toString c.rxUnicast.packets ++ "/" ++ toString c.rxUnicast.bytes,
    "UnicastMiss", toString c.txUnicast.packets ++ "/" ++ toString c.txUnicast.bytes, e, e, e, e]
  let row6 := [e, e, e, e, "Multicast", toString c.rxMulticast.packets ++ "/" ++ toString c.rxMulticast.bytes,
    "Multicast", toString c.txMulticast.packets ++ "/" ++ toString c.txMulticast.bytes, e, e, e, e]
  let row7 := [e, e, e, e, "Broadcast", toString c.rxBroadcast.packets ++ "/" ++ toString c.rxBroadcast.bytes,
    "Broadcast", toString c.txBroadcast.packets ++ "/" ++ toString c.txBroadcast.bytes, e, e, e, e]
  let row8 := [e, e, e, e, "NoBuf", toString c.rxNoBuf, e, e, e, e, e, e]
  let row9 := [e, e, e, e, "Miss", toString c.rxMiss, e, e, e, e, e, e]
  let row10 := [e, e, e, e, e, e, e, e, e, e, e, e]
  applyIPs iface.ipAddrs [row0, row1, row2, row3, row4, row5, row6, row7, row8, row9, row10]

/-- Embeds `App.formatInterfaces` (client package): emit the 11-row block of
every interface against the current sample cache, then replace the cache
(`app.IfCache = ifaces`) with this call's interface list.  Returns the row
matrix handed to the display together with the new cache value. -/
def formatInterfaces (cache : List Interface) (ifaces : List Interface) :
    List (List String) × List Interface :=
  ((ifaces.map (ifaceBlock cache)).flatten, ifaces)

/-- Embeds one Interfaces-tab tick of `App.Run`'s polling loop: fetch the
interfaces (outcome `fetch`), log on error (first component of the result)
and keep the nil slice the failed `GetInterfaces` returned, sort the slice in
place (`sortFn` stands for `sortInterfaceStats`, defined outside the given
sources; it permutes its argument), then format and push the rows and replace
the cache via `formatInterfaces`.  Result: (error was logged, rows pushed to
the display, new `IfCache`). -/
def interfacesTick (sortFn : List Interface → List Interface) (cache : List Interface)
    (fetch : Except String (List Interface)) : Bool × List (List String) × List Interface :=
  let ifaces : List Interface := match fetch with
    | .ok l => l
    | .error _ => []
  let logged : Bool := match fetch with
    | .ok _ => false
    | .error _ => true
  let p := formatInterfaces cache (sortFn ifaces)
  (logged, p.1, p.2)

/-- Modelled from the spec: the display boundary (gui package, outside the
given sources) "accepts a rectangular matrix of text cells per tab per
refresh" — each `Update` push replaces the tab's displayed matrix with the
incoming one. -/
def updateDisplay (_displayed incoming : List (List String)) : List (List String) :=
  incoming

/-- Embeds the Interfaces branch of the clear-counters callback in `App.Run`:
the `clear interfaces` command is issued (its failure is only logged, the
outcome `_cmdResult` does not change the control flow) and then the sample
cache is unconditionally emptied (`app.IfCache = nil`). -/
def clearIfaceAction (_cmdResult : Except String Unit) (_cache : List Interface) :
    List Interface :=
  []

/-- A concrete interface sample used by the counterexample scenarios. -/
def iface0 : Interface :=
  { counters :=
      { interfaceIndex := 1
        interfaceName := "eth0"
        rx := { packets := 10, bytes := 1000 }
        tx := { packets := 20, bytes := 2000 }
        rxErrors := 0
        txErrors := 0
        rxUnicast := { packets := 0, bytes := 0 }
        rxMulticast := { packets := 0, bytes := 0 }
        rxBroadcast := { packets := 0, bytes := 0 }
        txUnicast := { packets := 0, bytes := 0 }
        txMulticast := { packets := 0, bytes := 0 }
        txBroadcast := { packets := 0, bytes := 0 }
        drops := 0
        punts := 0
        ip4 := 0
        ip6 := 0
        rxNoBuf := 0
        rxMiss := 0 }
    ipAddrs := []
    state := "up"
    mtu := [1500, 0, 0, 0] }

/-! ## Sort specifications (client package) -/

/-- One per-tab entry of `App.sortBy`: the ascending flag and the sorted
column (field) index. -/
structure SortSpec where
  asc : Bool
  field : Int
deriving DecidableEq, Repr

/-- One case body of the sort callback in `App.Run`: at tab position `i`
store the requested column and flip — never set — the ascending flag. -/
def toggleSortAt (sb : List SortSpec) (i : Nat) (row : Int) : List SortSpec :=
  match sb.get? i with
  | some s => sb.set i { asc := !s.asc, field := row }
  | none => sb

/-- Embeds the sort callback of `App.Run`: the switch on the event's tab
toggles the Interfaces, Nodes or Errors entry of `App.sortBy`; sort events on
the Memory and Threads tabs fall through and change nothing. -/
def sortEvent (currTab : Nat) (currRow : Int) (sb : List SortSpec) : List SortSpec :=
  match currTab with
  | 0 => toggleSortAt sb 0 currRow
  | 1 => toggleSortAt sb 1 currRow
  | 2 => toggleSortAt sb 2 currRow
  | _ => sb

/-! ## Arithmetic helpers -/

theorem wsub_eq_sub (a b : Nat) (hba : b ≤ a) (ha : a < 2 ^ 64) : wsub a b = a - b := by
  have hb : b < 2 ^ 64 := lt_of_le_of_lt hba ha
  unfold wsub
  rw [Nat.mod_eq_of_lt hb]
  have hsplit : a + (2 ^ 64 - b) = (a - b) + 2 ^ 64 := by omega
  rw [hsplit, Nat.add_mod_right, Nat.mod_eq_of_lt (by omega)]

/-! ## Error counters: C1, C2 -/

/-- C1: with counter values in `uint64` range and no baseline exceeding its
raw counter, `GetErrors` reports exactly the raw counters diminished by the
recorded baseline for their concatenated (node,name) key (absent keys read as
zero through the total-function model) with the zero deltas filtered out. -/
theorem getErrors_deltas (m : Baseline) (cs : List NodeCounter)
    (h : ∀ c ∈ cs, c.value < 2 ^ 64 ∧ m (c.node ++ c.name) ≤ c.value) :
    getErrors m cs =
      (cs.map fun c => { c with value := c.value - m (c.node ++ c.name) }).filter
        fun c => c.value != 0 := by
  induction cs with
  | nil => rfl
  | cons c rest ih =>
    obtain ⟨hv, hm⟩ := h c (List.mem_cons_self _ _)
    have hrest := ih fun d hd => h d (List.mem_cons_of_mem _ hd)
    have hw : wsub c.value (m (c.node ++ c.name)) = c.value - m (c.node ++ c.name) :=
      wsub_eq_sub _ _ hm hv
    simp only [getErrors, hw, List.map_cons, List.filter_cons]
    by_cases h0 : c.value - m (c.node ++ c.name) = 0
    · simp [h0, hrest]
    · simp [h0, hrest]

/-- Witness for C1: the concrete scenario of the specification — baseline
(`node1`,`err-a`) ↦ 5, raw counters [(`node1`,`err-a`) = 5,
(`node1`,`err-b`) = 2] — satisfies the range hypotheses and yields exactly
[(`node1`,`err-b`) = 2]. -/
theorem getErrors_deltas_witness :
    (∀ c ∈ exRaw, c.value < 2 ^ 64 ∧ exBaseline (c.node ++ c.name) ≤ c.value) ∧
    getErrors exBaseline exRaw = [{ value := 2, node := "node1", name := "err-b" }] := by
  refine ⟨by decide, ?_⟩
  rw [getErrors_deltas exBaseline exRaw (by decide)]
  decide

theorem updateLastErrors_not_mem (m : Baseline) (cs : List NodeCounter) (k : String)
    (h : ∀ c ∈ cs, c.node ++ c.name ≠ k) :
    updateLastErrors m cs k = m k := by
  induction cs generalizing m with
  | nil => rfl
  | cons c rest ih =>
    simp only [updateLastErrors]
    by_cases h0 : c.value = 0
    · rw [if_pos h0]
      exact ih m fun d hd => h d (List.mem_cons_of_mem _ hd)
    · rw [if_neg h0, ih _ fun d hd => h d (List.mem_cons_of_mem _ hd)]
      exact if_neg (Ne.symm (h c (List.mem_cons_self _ _)))

theorem updateLastErrors_lookup_ne_zero (m : Baseline) (cs : List NodeCounter)
    (hnd : (cs.map fun c => c.node ++ c.name).Nodup)
    (c : NodeCounter) (hc : c ∈ cs) (hv : c.value ≠ 0) :
    updateLastErrors m cs (c.node ++ c.name) = c.value := by
  induction cs generalizing m with
  | nil => cases hc
  | cons d rest ih =>
    simp only [List.map_cons, List.nodup_cons] at hnd
    obtain ⟨hdk, hnd2⟩ := hnd
    rcases List.mem_cons.mp hc with rfl | hc2
    · simp only [updateLastErrors, if_neg hv]
      rw [updateLastErrors_not_mem]
      · simp
      · intro e he hk
        exact hdk (hk ▸ List.mem_map_of_mem _ he)
    · simp only [updateLastErrors]
      by_cases h0 : d.value = 0
      · rw [if_pos h0]
        exact ih m hnd2 hc2
      · rw [if_neg h0]
        exact ih _ hnd2 hc2

theorem updateLastErrors_lookup_zero (m : Baseline) (cs : List NodeCounter)
    (hnd : (cs.map fun c => c.node ++ c.name).Nodup)
    (c : NodeCounter) (hc : c ∈ cs) (hv : c.value = 0) :
    updateLastErrors m cs (c.node ++ c.name) = m (c.node ++ c.name) := by
  induction cs generalizing m with
  | nil => cases hc
  | cons d rest ih =>
    simp only [List.map_cons, List.nodup_cons] at hnd
    obtain ⟨hdk, hnd2⟩ := hnd
    rcases List.mem_cons.mp hc with rfl | hc2
    · simp only [updateLastErrors, if_pos hv]
      apply updateLastErrors_not_mem
      intro e he hk
      exact hdk (hk ▸ List.mem_map_of_mem _ he)
    · simp only [updateLastErrors]
      by_cases h0 : d.value = 0
      · rw [if_pos h0]
        exact ih m hnd2 hc2
      · rw [if_neg h0, ih _ hnd2 hc2]
        have hne : d.node ++ d.name ≠ c.node ++ c.name := fun hk =>
          hdk (hk ▸ List.mem_map_of_mem _ hc2)
        exact if_neg (Ne.symm hne)

theorem getErrors_empty_of_all_zero (m : Baseline) (cs : List NodeCounter)
    (h : ∀ c ∈ cs, wsub c.value (m (c.node ++ c.name)) = 0) :
    getErrors m cs = [] := by
  induction cs with
  | nil => rfl
  | cons c rest ih =>
    simp only [getErrors, if_pos (h c (List.mem_cons_self _ _))]
    exact ih fun d hd => h d (List.mem_cons_of_mem _ hd)

/-- C2 (amended): after the baseline snapshot taken by `ClearErrorCounters`,
the very next `GetErrors` over the same raw counter values returns the empty
set — provided each (node,name) key occurs once in the dump, values are in
`uint64` range, and no counter whose raw value is zero carries a stale
non-zero baseline entry.  Without the last proviso the claim fails (see the
counterexample): the snapshot skips zero-valued counters, so a stale baseline
survives and the `uint64` delta wraps around to a huge non-zero value. -/
theorem clearErrorCounters_then_getErrors_empty (m : Baseline) (cs : List NodeCounter)
    (hnd : (cs.map fun c => c.node ++ c.name).Nodup)
    (hrange : ∀ c ∈ cs, c.value < 2 ^ 64)
    (hstale : ∀ c ∈ cs, c.value = 0 → m (c.node ++ c.name) = 0) :
    getErrors (clearErrorCounters m cs) cs = [] := by
  apply getErrors_empty_of_all_zero
  intro c hc
  by_cases h0 : c.value = 0
  · rw [clearErrorCounters, updateLastErrors_lookup_zero _ _ hnd c hc h0,
      hstale c hc h0, h0]
    decide
  · rw [clearErrorCounters, updateLastErrors_lookup_ne_zero _ _ hnd c hc h0,
      wsub_eq_sub _ _ (le_refl _) (hrange c hc), Nat.sub_self]

/-- Witness for C2 (amended): the concrete dump [(`node1`,`err-a`) = 5,
(`node1`,`err-b`) = 2] against the baseline (`node1`,`err-a`) ↦ 5 satisfies
every hypothesis, and clearing then reading yields the empty set. -/
theorem clearErrorCounters_then_getErrors_empty_witness :
    ((exRaw.map fun c => c.node ++ c.name).Nodup ∧
      (∀ c ∈ exRaw, c.value < 2 ^ 64) ∧
      (∀ c ∈ exRaw, c.value = 0 → exBaseline (c.node ++ c.name) = 0)) ∧
    getErrors (clearErrorCounters exBaseline exRaw) exRaw = [] :=
  ⟨⟨by decide, by decide, by decide⟩,
    clearErrorCounters_then_getErrors_empty exBaseline exRaw (by decide) (by decide)
      (by decide)⟩

/-- Counterexample to C2 as stated: the engine reports the same raw value 0
for (`node1`,`err-a`) at the snapshot and at the next read, yet the stale
baseline entry 5 survives `ClearErrorCounters` (the snapshot skips
zero-valued counters) and the `uint64` subtraction wraps, so `GetErrors`
returns a non-empty set containing the huge value 2^64 - 5 instead of the
empty set the claim demands. -/
theorem clearErrorCounters_stale_baseline_counterexample :
    getErrors (clearErrorCounters exBaseline exRawZero) exRawZero =
      [{ value := 2 ^ 64 - 5, node := "node1", name := "err-a" }] ∧
    getErrors (clearErrorCounters exBaseline exRawZero) exRawZero ≠ [] := by
  constructor
  · decide
  · decide

/-! ## Interface join: C4, C5 -/

theorem joinInterfaces_filterMap (details : Nat → Option IfaceDetails)
    (stats : List InterfaceCounters) :
    joinInterfaces details stats =
      stats.filterMap fun c => (details c.interfaceIndex).map (mkInterface c) := by
  induction stats with
  | nil => rfl
  | cons c rest ih =>
    cases h : details c.interfaceIndex with
    | none => simp [joinInterfaces, h, ih, List.filterMap_cons]
    | some d => simp [joinInterfaces, h, ih, List.filterMap_cons]

/-- C5: the join of `GetInterfaces` keeps exactly the counter-side entries
whose interface index resolves in the detail map — unmatched entries are
silently dropped, in order, with no error — and the state of every produced
entry is `"up"` precisely when the detail view's enabled flag is set and
`"down"` precisely when it is not. -/
theorem getInterfaces_join_exact (details : Nat → Option IfaceDetails)
    (stats : List InterfaceCounters) :
    (joinInterfaces details stats =
      stats.filterMap fun c => (details c.interfaceIndex).map (mkInterface c)) ∧
    (∀ c d, ((mkInterface c d).state = "up" ↔ d.enabled = true) ∧
      ((mkInterface c d).state = "down" ↔ d.enabled = false)) := by
  refine ⟨joinInterfaces_filterMap details stats, ?_⟩
  intro c d
  cases hd : d.enabled <;> constructor <;> simp [mkInterface, hd]

/-- C4 (amended): if either concurrent fetch of `GetInterfaces` fails the
call returns an error and no interface list, the first error in completion
order winning; but the receive loop returns as soon as it gets the first
error value — when the first-arriving fetch failed, only one of the two
channel values has been received (count 1, not 2), so the join point does not
wait for the second fetch before reporting the failure.  Only in the cases
where the first-arriving fetch succeeded are both values received. -/
theorem getInterfaces_error_join (flag : Bool)
    (dRes : Except String (Nat → Option IfaceDetails))
    (sRes : Except String (List InterfaceCounters)) :
    (∀ e, (if flag then errOf dRes else errOf sRes) = some e →
      getInterfacesRun flag dRes sRes = (.error ("request failed: " ++ e), 1)) ∧
    ((if flag then errOf dRes else errOf sRes) = none →
      ∀ e, (if flag then errOf sRes else errOf dRes) = some e →
        getInterfacesRun flag dRes sRes = (.error ("request failed: " ++ e), 2)) ∧
    (errOf dRes = none → errOf sRes = none →
      getInterfacesRun flag dRes sRes =
        (.ok (joinInterfaces (valueOr dRes fun _ => none) (valueOr sRes [])), 2)) := by
  cases flag <;> cases dRes <;> cases sRes <;>
    refine ⟨?_, ?_, ?_⟩ <;> intros <;> simp_all [getInterfacesRun, errOf, valueOr, recvErrors]

/-- Witness for C4 (amended): a failed detail dump arriving first yields the
error result after a single channel receive. -/
theorem getInterfaces_error_join_witness :
    getInterfacesRun true (.error ("dump failed")) (.ok []) =
      (.error ("request failed: " ++ "dump failed"), 1) :=
  (getInterfaces_error_join true (.error ("dump failed")) (.ok [])).1 ("dump failed") rfl

/-- Counterexample to C4 as stated: with the detail dump failing and its
completion message arriving first, the receive loop performed only one of the
two channel receives before reporting the failure — it did not wait for the
counter fetch to complete. -/
theorem getInterfaces_no_wait_counterexample :
    (getInterfacesRun true (.error ("dump failed")) (.ok [])).2 = 1 ∧
    (getInterfacesRun true (.error ("dump failed")) (.ok [])).2 ≠ 2 := by
  constructor
  · rfl
  · decide

/-! ## Interface rates: C3 -/

/-- C3: against the previous sample cache, the per-second rate of an
interface absent from the cache is 0 in all four components, and for an
interface whose name resolves to a cached previous sample the rate is the
current counter minus the cached counter (for in-range, non-decreasing
counters), in all four components. -/
theorem ifaceRates_delta (cache : List Interface) (cur : Interface) :
    (nameToIdx cache cur.counters.interfaceName = none →
      ifaceRates cache cur = (0, 0, 0, 0)) ∧
    (∀ idx prev, nameToIdx cache cur.counters.interfaceName = some idx →
      cache[idx]? = some prev →
      prev.counters.rx.bytes ≤ cur.counters.rx.bytes → cur.counters.rx.bytes < 2 ^ 64 →
      prev.counters.tx.bytes ≤ cur.counters.tx.bytes → cur.counters.tx.bytes < 2 ^ 64 →
      prev.counters.rx.packets ≤ cur.counters.rx.packets → cur.counters.rx.packets < 2 ^ 64 →
      prev.counters.tx.packets ≤ cur.counters.tx.packets → cur.counters.tx.packets < 2 ^ 64 →
      ifaceRates cache cur =
        (cur.counters.rx.bytes - prev.counters.rx.bytes,
         cur.counters.tx.bytes - prev.counters.tx.bytes,
         cur.counters.rx.packets - prev.counters.rx.packets,
         cur.counters.tx.packets - prev.counters.tx.packets)) := by
  constructor
  · intro h
    simp [ifaceRates, h]
  · intro idx prev hidx hprev h1 h2 h3 h4 h5 h6 h7 h8
    simp [ifaceRates, hidx, hprev, wsub_eq_sub _ _ h1 h2, wsub_eq_sub _ _ h3 h4,
      wsub_eq_sub _ _ h5 h6, wsub_eq_sub _ _ h7 h8]

/-- The current poll's sample in the concrete rate scenario: same interface
name as `iface0`, rx bytes grown from 1000 to 1500. -/
def ifaceCur : Interface :=
  { iface0 with
    counters := { iface0.counters with
      rx := { packets := 15, bytes := 1500 }
      tx := { packets := 26, bytes := 2600 } } }

/-- Witness for C3: with the previous sample `iface0` (rx-bytes 1000) cached
under name `eth0`, the current sample with rx-bytes 1500 yields rate 500 (and
correspondingly 600/5/6 for the other three counters). -/
theorem ifaceRates_delta_witness :
    nameToIdx [iface0] ifaceCur.counters.interfaceName = some 0 ∧
    ifaceRates [iface0] ifaceCur = (500, 600, 5, 6) := by
  refine ⟨by decide, ?_⟩
  have h := (ifaceRates_delta [iface0] ifaceCur).2 0 iface0 (by decide) (by decide)
    (by decide) (by decide) (by decide) (by decide) (by decide) (by decide)
    (by decide) (by decide)
  rw [h]
  decide

/-! ## Cache replacement and failed polls: C7, C8 -/

/-- C7 (amended): the interface sample cache is fully replaced on every
interfaces tick with that tick's fetch result — the sorted interface list
after a successful fetch, and the empty sample after a failed fetch.  A
failed fetch therefore clears the cache instead of retaining the previous
completed poll. -/
theorem interfacesTick_cache_replaced (sortFn : List Interface → List Interface)
    (hperm : ∀ l, List.Perm (sortFn l) l) (cache : List Interface) :
    (∀ l, (interfacesTick sortFn cache (.ok l)).2.2 = sortFn l) ∧
    (∀ e, (interfacesTick sortFn cache (.error e)).2.2 = []) := by
  constructor
  · intro l
    rfl
  · intro e
    have h0 : sortFn [] = [] := List.Perm.eq_nil (hperm [])
    simp [interfacesTick, formatInterfaces, h0]

/-- Witness for C7 (amended): with the identity permutation as the sorter
and `iface0` cached, a failed fetch leaves the cache empty. -/
theorem interfacesTick_cache_replaced_witness :
    (∀ l : List Interface, List.Perm (id l) l) ∧
    (interfacesTick id [iface0] (.error ("poll failed"))).2.2 = [] :=
  ⟨fun l => List.Perm.refl l,
    (interfacesTick_cache_replaced id (fun l => List.Perm.refl l) [iface0]).2 ("poll failed")⟩

/-- Counterexample to C7 as stated: with the previous completed sample
`[iface0]` cached, a failed fetch leaves the cache empty — it does not leave
the cache holding the previous completed sample. -/
theorem interfacesTick_failed_fetch_clears_cache :
    (interfacesTick id [iface0] (.error ("poll failed"))).2.2 = [] ∧
    (interfacesTick id [iface0] (.error ("poll failed"))).2.2 ≠ [iface0] := by
  constructor
  · rfl
  · decide

/-- C8 (amended): when the interfaces fetch fails, the tick logs the failure
and the loop carries on with the next state (it is never fatal), but the tick
still formats the nil result and pushes the resulting empty row matrix to the
display, and it also empties the cache — the previous rows are not left in
place by the push. -/
theorem interfacesTick_error_logs_and_pushes_empty
    (sortFn : List Interface → List Interface)
    (hperm : ∀ l, List.Perm (sortFn l) l) (cache : List Interface) (e : String) :
    interfacesTick sortFn cache (.error e) = (true, [], []) := by
  have h0 : sortFn [] = [] := List.Perm.eq_nil (hperm [])
  simp [interfacesTick, formatInterfaces, h0]

/-- Witness for C8 (amended): the identity permutation and a concrete cached
sample instantiate the hypotheses. -/
theorem interfacesTick_error_logs_and_pushes_empty_witness :
    (∀ l : List Interface, List.Perm (id l) l) ∧
    interfacesTick id [iface0] (.error ("poll failed")) = (true, [], []) :=
  ⟨fun l => List.Perm.refl l,
    interfacesTick_error_logs_and_pushes_empty id (fun l => List.Perm.refl l) [iface0]
      ("poll failed")⟩

/-- Counterexample to C8 as stated: after a successful tick displayed the
11-row block of `iface0`, a failed fetch on the next tick pushes an empty
matrix and the display — which replaces its contents on every push — no
longer shows the previously displayed rows. -/
theorem failedPoll_replaces_displayed_rows :
    updateDisplay ((interfacesTick id [] (.ok [iface0])).2.1)
        ((interfacesTick id [iface0] (.error ("poll failed"))).2.1) ≠
      (interfacesTick id [] (.ok [iface0])).2.1 := by
  decide

/-! ## Version selection: C6 -/

/-- A version handler entry used by the C6 scenarios. -/
def verA : VersionHandler := { version := "19.04", msgs := [] }

/-- A second version handler entry used by the C6 scenarios. -/
def verB : VersionHandler := { version := "19.08", msgs := ["m"] }

/-- C6 (amended): the version loop implements a first-match policy relative
to the order in which the Go map range yields the handlers — the first
handler in that encountered order whose compatibility check passes is
selected, never a later one.  The encountered order itself is not fixed (see
the counterexample), so this is all the loop guarantees. -/
theorem selectVersion_first_match (check : List String → Bool)
    (l1 l2 : List VersionHandler) (v : VersionHandler)
    (h1 : ∀ w ∈ l1, check w.msgs = false) (h2 : check v.msgs = true) :
    selectVersion check (l1 ++ v :: l2) = some v := by
  induction l1 with
  | nil => simp [selectVersion, h2]
  | cons w rest ih =>
    simp only [List.cons_append, selectVersion, h1 w (List.mem_cons_self _ _)]
    simpa using ih fun u hu => h1 u (List.mem_cons_of_mem _ hu)

/-- Witness for C6 (amended): with a check that rejects empty message sets,
the incompatible handler `verA` ahead of `verB` is skipped and `verB` is
selected. -/
theorem selectVersion_first_match_witness :
    (∀ w ∈ [verA], (fun msgs => !List.isEmpty msgs) w.msgs = false) ∧
    (fun msgs => !List.isEmpty msgs) verB.msgs = true ∧
    selectVersion (fun msgs => !List.isEmpty msgs) ([verA] ++ verB :: []) = some verB :=
  ⟨by decide, by decide,
    selectVersion_first_match (fun msgs => !List.isEmpty msgs) [verA] [] verB
      (by decide) (by decide)⟩

/-- Counterexample to C6 as stated: the two orders in which the Go map range
may yield the same two-handler set select different versions when the
connection is compatible with both, so the selected version is not a
function of the version set and the connection alone — there is no fixed
priority order. -/
theorem selectVersion_order_dependent :
    List.Perm [verA, verB] [verB, verA] ∧
    selectVersion (fun _ => true) [verA, verB] ≠
      selectVersion (fun _ => true) [verB, verA] := by
  constructor
  · exact List.Perm.swap verB verA []
  · decide

/-! ## Sort toggling: C9 -/

theorem toggleSortAt_eq_some (sb : List SortSpec) (i : Nat) (row : Int) (s : SortSpec)
    (h : sb.get? i = some s) :
    toggleSortAt sb i row = sb.set i { asc := !s.asc, field := row } := by
  unfold toggleSortAt
  rw [h]

theorem toggleSortAt_eq_none (sb : List SortSpec) (i : Nat) (row : Int)
    (h : sb.get? i = none) :
    toggleSortAt sb i row = sb := by
  unfold toggleSortAt
  rw [h]

theorem toggleSortAt_get_self (sb : List SortSpec) (i : Nat) (row : Int) (s : SortSpec)
    (h : sb.get? i = some s) :
    (toggleSortAt sb i row).get? i = some { asc := !s.asc, field := row } := by
  have hi : i < sb.length := List.get?_eq_some.mp h |>.1
  rw [toggleSortAt_eq_some sb i row s h]
  exact List.get?_set_eq_of_lt _ (by simpa using hi)

theorem toggleSortAt_asc_restore (sb : List SortSpec) (i : Nat) (row : Int) (j : Nat) :
    ((toggleSortAt (toggleSortAt sb i row) i row).get? j).map SortSpec.asc =
      (sb.get? j).map SortSpec.asc := by
  cases h : sb.get? i with
  | none =>
    rw [toggleSortAt_eq_none sb i row h, toggleSortAt_eq_none sb i row h]
  | some s =>
    have h1 := toggleSortAt_get_self sb i row s h
    have hi : i < sb.length := List.get?_eq_some.mp h |>.1
    rw [toggleSortAt_eq_some _ i row _ h1, toggleSortAt_eq_some sb i row s h,
      List.set_set]
    by_cases hji : j = i
    · subst hji
      rw [List.get?_set_eq_of_lt _ (by simpa using hi), h]
      simp
    · rw [List.get?_set_ne _ _ (Ne.symm hji)]

/-- C9: two sort events on the same tab and column restore every tab's sort
direction (the ascending flag is toggled, never set, so a double toggle is
the identity on directions); moreover on the three sortable tabs a single
event flips the flag and stores the column, and the double event restores the
original flag with the column stored. -/
theorem sortEvent_double_restores (sb : List SortSpec) (tab : Nat) (row : Int) :
    (∀ j, ((sortEvent tab row (sortEvent tab row sb)).get? j).map SortSpec.asc =
      (sb.get? j).map SortSpec.asc) ∧
    (∀ s, sb.get? tab = some s → tab < 3 →
      (sortEvent tab row sb).get? tab = some { asc := !s.asc, field := row } ∧
      (sortEvent tab row (sortEvent tab row sb)).get? tab =
        some { asc := s.asc, field := row }) := by
  have hdouble : ∀ s, sb.get? tab = some s →
      (toggleSortAt (toggleSortAt sb tab row) tab row).get? tab =
        some { asc := s.asc, field := row } := by
    intro s hs
    have h1 := toggleSortAt_get_self sb tab row s hs
    have h2 := toggleSortAt_get_self (toggleSortAt sb tab row) tab row _ h1
    simpa using h2
  rcases tab with _ | _ | _ | n
  · exact ⟨fun j => toggleSortAt_asc_restore sb 0 row j,
      fun s hs _ => ⟨toggleSortAt_get_self sb 0 row s hs, hdouble s hs⟩⟩
  · exact ⟨fun j => toggleSortAt_asc_restore sb 1 row j,
      fun s hs _ => ⟨toggleSortAt_get_self sb 1 row s hs, hdouble s hs⟩⟩
  · exact ⟨fun j => toggleSortAt_asc_restore sb 2 row j,
      fun s hs _ => ⟨toggleSortAt_get_self sb 2 row s hs, hdouble s hs⟩⟩
  · exact ⟨fun j => rfl, fun s hs hlt => absurd hlt (by omega)⟩

/-- Witness for C9: on the interfaces tab of a five-entry sort array, a
double sort event on column 2 flips the flag twice and stores the column. -/
theorem sortEvent_double_restores_witness :
    ([{ asc := true, field := -1 }, { asc := true, field := -1 },
        { asc := true, field := -1 }, { asc := true, field := -1 },
        { asc := true, field := -1 }] : List SortSpec).get? 0 =
      some { asc := true, field := -1 } ∧
    (0 : Nat) < 3 ∧
    (sortEvent 0 2 (sortEvent 0 2
        [{ asc := true, field := -1 }, { asc := true, field := -1 },
         { asc := true, field := -1 }, { asc := true, field := -1 },
         { asc := true, field := -1 }])).get? 0 = some { asc := true, field := 2 } := by
  refine ⟨by decide, by decide, ?_⟩
  have h := (sortEvent_double_restores
    [{ asc := true, field := -1 }, { asc := true, field := -1 },
     { asc := true, field := -1 }, { asc := true, field := -1 },
     { asc := true, field := -1 }] 0 2).2 { asc := true, field := -1 } (by decide)
    (by decide)
  exact h.2

/-! ## Clearing interface counters: C10 -/

/-- C10: the clear-interface-counters action empties the sample cache no
matter how the clear command itself fared, and against the emptied cache the
next poll computes a zero per-second rate for every interface, since no
interface name resolves to a previous sample. -/
theorem clearIfaceAction_resets_rates (r : Except String Unit) (cache : List Interface) :
    clearIfaceAction r cache = [] ∧
    ∀ iface : Interface, ifaceRates (clearIfaceAction r cache) iface = (0, 0, 0, 0) := by
  constructor
  · rfl
  · intro iface
    rfl

end Vpptop
